import Mathlib

/-
Shallow embedding of the SGRML markup-to-SGR compiler
(src/src/sgrml/parser.py).

The tokenizer (html.parser.HTMLParser) is an external collaborator: the
interpreter is modelled as a function over the event stream it delivers
(start-tag, end-tag, text-data events).  Tag names delivered by the
tokenizer are nonempty, start with an ASCII letter and are lowercased;
attribute values are `Option String` because a valueless attribute is
delivered with value None.
-/

namespace SGRML

/-- ESC control byte, 0x1B (parser.py, constant ESC). -/
def ESC : String := "\x1b"

/-- CSI = ESC followed by 0x5B (parser.py, constant CSI). -/
def CSI : String := ESC ++ "\x5b"

/-- Final byte of an SGR control sequence, 0x6D (parser.py, constant SGR_FINAL_BYTE). -/
def SGR_FINAL_BYTE : String := "\x6d"

/-- `wrap_sgr(code)` builds `CSI + code + final byte` (parser.py, wrap_sgr); the
Python parameter is `str | int`, and an int is interpolated as its decimal
digits, so the two cases are embedded as `wrap_sgr` on String and `wrap_sgrN`
on Nat. -/
def wrap_sgr (code : String) : String := CSI ++ code ++ SGR_FINAL_BYTE

/-- `wrap_sgr` applied to an integer code. -/
def wrap_sgrN (code : Nat) : String := wrap_sgr (toString code)

/-- The dataclass SGRTag (parser.py): a style name paired with its rendered
escape sequence. -/
structure SGRTag where
  html_tag : String
  sgr_sequence : String
deriving DecidableEq

/-- The ValueError raise sites of parser.py, one constructor per site, carrying
the data interpolated into the message.  `removeNotInDeque` is the ValueError
raised by `deque.remove` when no element compares equal to the argument. -/
inductive PyErr where
  /-- `validate_tag`: Unknown tag. -/
  | unknownTag (tag : String)
  /-- `handle_starttag`: tag does not have this attribute. -/
  | unknownAttribute (tag attr : String)
  /-- `SGRSequences.u`: unknown underline type (the interpolated value; Python
  None prints as the four characters None). -/
  | unknownUnderlineType (t : String)
  /-- `SGRSequences.blink`: unknown blink type. -/
  | unknownBlinkType (t : String)
  /-- `deque.remove` on the tags stack found no matching element. -/
  | removeNotInDeque
  /-- `SGR.__eq__`: cannot compare to this type. -/
  | cantCompare (typeName : String)
deriving DecidableEq

/-- `SGRSequences.reset()` (parser.py): the SGR sequence with parameter 0. -/
def SGRSequences.reset : String := wrap_sgrN 0

/-- `SGRSequences.b()`: bold, parameter 1. -/
def SGRSequences.b : SGRTag := ⟨"b", wrap_sgrN 1⟩

/-- `SGRSequences.dim()`: dim, parameter 2. -/
def SGRSequences.dim : SGRTag := ⟨"dim", wrap_sgrN 2⟩

/-- `SGRSequences.i()`: italic, parameter 3. -/
def SGRSequences.i : SGRTag := ⟨"i", wrap_sgrN 3⟩

/-- The `underline_types` dict of `SGRSequences.u`. -/
def underline_types : List (String × Nat) :=
  [("solid", 1), ("double", 2), ("wavy", 3), ("dotted", 4), ("dashed", 5)]

/-- `SGRSequences.u(type)` (parser.py).  The Python parameter has declared type
str with default "solid", but the caller (`handle_starttag`) can pass the
attribute value delivered by the tokenizer, which may be None; hence the
argument here is `Option String`, `none` embedding Python None.  A value that
is not a key of `underline_types` (None included, since the dict has only
string keys) raises ValueError. -/
def SGRSequences.u : Option String → Except PyErr SGRTag
  | none => .error (.unknownUnderlineType "None")
  | some t =>
    match underline_types.lookup t with
    | some n => .ok ⟨"u", wrap_sgr ("4:" ++ toString n)⟩
    | none => .error (.unknownUnderlineType t)

/-- The `blink_types` dict of `SGRSequences.blink`. -/
def blink_types : List (String × Nat) := [("slow", 5), ("rapid", 6), ("fast", 6)]

/-- `SGRSequences.blink(type)` (parser.py); same Option convention as
`SGRSequences.u`. -/
def SGRSequences.blink : Option String → Except PyErr SGRTag
  | none => .error (.unknownBlinkType "None")
  | some t =>
    match blink_types.lookup t with
    | some n => .ok ⟨"blink", wrap_sgrN n⟩
    | none => .error (.unknownBlinkType t)

/-- The five style names whose SGRSequences classmethod returns an SGRTag. -/
def tableStyles : List String := ["b", "dim", "i", "u", "blink"]

/-- The attribute names `hasattr(SGRSequences, tag)` finds, restricted to
strings the tokenizer can deliver as a tag name (nonempty, first character an
ASCII letter, lowercased).  These are the six classmethods defined on the
class plus `mro`, inherited from the metaclass `type` (class attribute lookup
also searches the metaclass); every other inherited attribute of the class is
a dunder name starting with an underscore, which no tokenizer tag name can
begin with. -/
def sgrsequences_attrs : List String := ["reset", "b", "dim", "i", "u", "blink", "mro"]

/-- `Parser.validate_tag` (parser.py line 120): raise ValueError unless
`hasattr(SGRSequences, tag)`. -/
def validate_tag (tag : String) : Except PyErr Unit :=
  if tag ∈ sgrsequences_attrs then .ok () else .error (.unknownTag tag)

/-- `str()` of the Python list returned by `SGRSequences.mro()`, i.e. of
`[SGRSequences, object]` (apostrophes written as \x27). -/
def mro_str : String :=
  "[<class \x27sgrml.parser.SGRSequences\x27>, <class \x27object\x27>]"

/-- An element of `Parser.tags_stack`.  Almost always an SGRTag, but the tag
name `mro` passes `validate_tag` (see `sgrsequences_attrs`) and then
`getattr(SGRSequences, "mro")()` returns the Python list `[SGRSequences,
object]`, which is pushed as-is. -/
inductive StackEntry where
  | tag (t : SGRTag)
  /-- The list `[SGRSequences, object]` pushed for tag name mro. -/
  | mroList
deriving DecidableEq

/-- `str()` of a stack element: `SGRTag.__str__` returns the escape sequence;
`str()` of the mro list is `mro_str`. -/
def StackEntry.str : StackEntry → String
  | .tag t => t.sgr_sequence
  | .mroList => mro_str

/-- The comparison `element == tag` performed by `deque.remove(tag)` where
`tag` is a str: `SGRTag.__eq__` against a str compares `html_tag`; a Python
list never compares equal to a str. -/
def StackEntry.eqName : StackEntry → String → Bool
  | .tag t, s => t.html_tag == s
  | .mroList, _ => false

/-- The style name a stack element stands for (used only in specification
statements): the `html_tag` of an SGRTag, and mro for the leaked list. -/
def StackEntry.name : StackEntry → String
  | .tag t => t.html_tag
  | .mroList => "mro"

/-- The state of `Parser` (parser.py): `tags_stack` is the deque with its left
end (`appendleft` end, most recently opened) at the head of the list, and
`result` is the output fragment list. -/
structure ParserState where
  tags_stack : List StackEntry
  result : List String
deriving DecidableEq

/-- A freshly constructed `Parser`: empty deque, empty result. -/
def parserInit : ParserState := ⟨[], []⟩

/-- `Parser.sgr_reset` (parser.py): append the reset sequence to the result
and clear the stack. -/
def sgr_reset (st : ParserState) : ParserState :=
  { tags_stack := [], result := st.result ++ [SGRSequences.reset] }

/-- The parameter names of `inspect.signature(getattr(SGRSequences, tag))` for
each validated tag: the bound classmethods u and blink expose the single
parameter type; reset, b, dim, i expose none, and `type.mro` bound to the
class likewise exposes no keyword parameter a tag attribute could match. -/
def sgr_func_parameters : String → List String
  | "u" => ["type"]
  | "blink" => ["type"]
  | _ => []

/-- The attrs-to-kwargs loop of `Parser.handle_starttag`: each attribute name
must be a parameter of the resolved style function, else ValueError at the
first offender; the surviving pairs populate the kwargs dict in order. -/
def build_kwargs (tag : String) :
    List (String × Option String) → Except PyErr (List (String × Option String))
  | [] => .ok []
  | (a, v) :: rest =>
    if a ∈ sgr_func_parameters tag then
      match build_kwargs tag rest with
      | .ok ks => .ok ((a, v) :: ks)
      | .error e => .error e
    else .error (.unknownAttribute tag a)

/-- Reading a keyword argument out of the kwargs dict: the last binding of the
key wins (dict assignment overwrites); when the key is absent the Python
default applies. -/
def getKwarg (kwargs : List (String × Option String)) (key : String)
    (dflt : Option String) : Option String :=
  match (kwargs.filter (fun p => p.1 == key)).getLast? with
  | some p => p.2
  | none => dflt

/-- The call `sgr_func(**kwargs)` of `Parser.handle_starttag`, for each tag
name that can reach it (validated and not reset): the five style classmethods
build an SGRTag (u and blink reading the type kwarg, defaulting to solid and
slow), and mro returns the Python list `[SGRSequences, object]`.  The
catch-all branch is unreachable after `validate_tag` and the reset check. -/
def call_sgr_func (tag : String) (kwargs : List (String × Option String)) :
    Except PyErr StackEntry :=
  match tag with
  | "b" => .ok (.tag SGRSequences.b)
  | "dim" => .ok (.tag SGRSequences.dim)
  | "i" => .ok (.tag SGRSequences.i)
  | "u" =>
    match SGRSequences.u (getKwarg kwargs "type" (some "solid")) with
    | .ok t => .ok (.tag t)
    | .error e => .error e
  | "blink" =>
    match SGRSequences.blink (getKwarg kwargs "type" (some "slow")) with
    | .ok t => .ok (.tag t)
    | .error e => .error e
  | "mro" => .ok .mroList
  | t => .error (.unknownTag t)

/-- `Parser.handle_starttag` (parser.py lines 129-149): the void tag reset
clears everything; otherwise validate the name, match attributes against the
style function parameters, call the function, push the produced value on the
left of the deque and append its `str()` to the result. -/
def handle_starttag (tag : String) (attrs : List (String × Option String))
    (st : ParserState) : Except PyErr ParserState :=
  if tag == "reset" then .ok (sgr_reset st)
  else
    match validate_tag tag with
    | .error e => .error e
    | .ok _ =>
      match build_kwargs tag attrs with
      | .error e => .error e
      | .ok kwargs =>
        match call_sgr_func tag kwargs with
        | .error e => .error e
        | .ok sgr_tag =>
          .ok { tags_stack := sgr_tag :: st.tags_stack,
                result := st.result ++ [StackEntry.str sgr_tag] }

/-- `deque.remove(tag)`: delete the first element (searching from the left,
i.e. from the most recently opened) that compares equal to the tag name;
`none` when no element matches (ValueError in Python). -/
def removeFirst : List StackEntry → String → Option (List StackEntry)
  | [], _ => none
  | e :: rest, name =>
    if e.eqName name then some rest
    else
      match removeFirst rest name with
      | some rest2 => some (e :: rest2)
      | none => none

/-- `Parser.handle_endtag` (parser.py lines 151-162): the void tag reset
clears everything; otherwise validate the name, remove the matching stack
entry, append the reset sequence, then re-append the `str()` of every entry
left on the stack in deque iteration order (left to right, most recently
opened first). -/
def handle_endtag (tag : String) (st : ParserState) : Except PyErr ParserState :=
  if tag == "reset" then .ok (sgr_reset st)
  else
    match validate_tag tag with
    | .error e => .error e
    | .ok _ =>
      match removeFirst st.tags_stack tag with
      | none => .error .removeNotInDeque
      | some stack2 =>
        .ok { tags_stack := stack2,
              result := (st.result ++ [SGRSequences.reset]) ++ stack2.map StackEntry.str }

/-- `Parser.handle_data`: append the literal text to the result. -/
def handle_data (data : String) (st : ParserState) : ParserState :=
  { st with result := st.result ++ [data] }

/-- A tokenizer event: start tag with ordered attribute list, end tag, or a
text data chunk. -/
inductive Event where
  | starttag (tag : String) (attrs : List (String × Option String))
  | endtag (tag : String)
  | data (s : String)
deriving DecidableEq

/-- Dispatch one tokenizer event to the matching handler. -/
def handle_event (st : ParserState) : Event → Except PyErr ParserState
  | .starttag t a => handle_starttag t a st
  | .endtag t => handle_endtag t st
  | .data d => .ok (handle_data d st)

/-- Run the interpreter over an event stream in document order; the first
raised error aborts the whole run. -/
def processEvents : List Event → ParserState → Except PyErr ParserState
  | [], st => .ok st
  | e :: rest, st =>
    match handle_event st e with
    | .ok st2 => processEvents rest st2
    | .error err => .error err

/-- `Parser.get_result` (parser.py lines 167-169): unconditionally perform one
final reset action, then join the fragment list. -/
def get_result (st : ParserState) : String := String.join (sgr_reset st).result

/-- Full compilation of an event stream on a fresh `Parser`. -/
def compileEvents (evs : List Event) : Except PyErr String :=
  match processEvents evs parserInit with
  | .ok st => .ok (get_result st)
  | .error e => .error e

/-- The state of an `SGR` facade instance (parser.py lines 173-203): `events`
is the token stream the external tokenizer produces for the instance's markup
string when fed; `parsed` is the cache `self._parsed`; `feedCount` counts the
calls to `self._parser.feed` made so far. -/
structure SGRState where
  events : List Event
  parsed : Option String
  feedCount : Nat
deriving DecidableEq

/-- `SGR.parse` (parser.py lines 184-190): return the cache when set;
otherwise feed the tokenizer once, finalize, cache and return.  An error
propagates before the cache assignment, so only success is cached. -/
def SGR.parse (s : SGRState) : Except PyErr (String × SGRState) :=
  match s.parsed with
  | some r => .ok (r, s)
  | none =>
    match compileEvents s.events with
    | .ok r =>
      .ok (r, { events := s.events, parsed := some r, feedCount := s.feedCount + 1 })
    | .error e => .error e

/-- Specification-side bookkeeping of the active style names: one step of the
well-nesting discipline the spec attributes to the tokenizer, tracking the
names of the styles currently open with the most recently opened at the head.
A start event pushes its name (defined only for the five table styles); an end
event must close the innermost open style; a text event changes nothing.
Sequences containing a reset event, an unknown style or a mismatched close are
outside the discipline (`none`). -/
def specStep (l : List String) : Event → Option (List String)
  | .starttag t _ => if t ∈ tableStyles then some (t :: l) else none
  | .endtag t =>
    match l with
    | [] => none
    | n :: rest => if n = t then some rest else none
  | .data _ => some l

/-- The open style names after a well-nested, reset-free event sequence,
newest first; `none` when the sequence is outside the discipline. -/
def specStack (evs : List Event) : Option (List String) :=
  List.foldlM specStep [] evs

/-- The stack of the interpreter represents the specification-side list of
open style names: the entry names match position by position and every entry is
an SGRTag of a table style. -/
def goodStack (stack : List StackEntry) (l : List String) : Prop :=
  stack.map StackEntry.name = l
    ∧ ∀ e ∈ stack, ∃ tg, e = .tag tg ∧ tg.html_tag ∈ tableStyles

/-- The kinds of value an `SGR.__eq__` argument can have: a str, another SGR
instance, or anything else (carrying its type name for the error message). -/
inductive PyValue where
  | str (s : String)
  | sgrState (st : SGRState)
  | otherValue (typeName : String)

/-- `SGR.__eq__` (parser.py lines 198-203): against a str, compare the
compiled string with it; against another SGR instance, compare the two
compiled strings; against anything else raise ValueError.  `str(self)` calls
`parse`, whose in-place cache update is dropped here since only the returned
string is observable in the comparison. -/
def SGR.eq (self : SGRState) (value : PyValue) : Except PyErr Bool :=
  match value with
  | .str s =>
    match SGR.parse self with
    | .error e => .error e
    | .ok (r, _) => .ok (r == s)
  | .sgrState o =>
    match SGR.parse self with
    | .error e => .error e
    | .ok (r, _) =>
      match SGR.parse o with
      | .error e => .error e
      | .ok (r2, _) => .ok (r == r2)
  | .otherValue tn => .error (.cantCompare tn)

/-- A table style name is not the string reset. -/
lemma beq_reset_of_mem {t : String} (h : t ∈ tableStyles) : (t == "reset") = false := by
  fin_cases h <;> rfl

/-- Every table style name passes `validate_tag`. -/
lemma validate_tag_of_mem {t : String} (h : t ∈ tableStyles) :
    validate_tag t = .ok () := by
  fin_cases h <;> rfl

/-- A successful `SGRSequences.u` lookup yields a tag named u. -/
lemma u_html_tag {o : Option String} {tg : SGRTag}
    (h : SGRSequences.u o = .ok tg) : tg.html_tag = "u" := by
  cases o with
  | none => exact Except.noConfusion h
  | some s =>
    rw [SGRSequences.u] at h
    cases hl : List.lookup s underline_types with
    | none => rw [hl] at h; exact Except.noConfusion h
    | some n =>
      rw [hl] at h
      have h2 := Except.ok.inj h
      rw [← h2]

/-- A successful `SGRSequences.blink` lookup yields a tag named blink. -/
lemma blink_html_tag {o : Option String} {tg : SGRTag}
    (h : SGRSequences.blink o = .ok tg) : tg.html_tag = "blink" := by
  cases o with
  | none => exact Except.noConfusion h
  | some s =>
    rw [SGRSequences.blink] at h
    cases hl : List.lookup s blink_types with
    | none => rw [hl] at h; exact Except.noConfusion h
    | some n =>
      rw [hl] at h
      have h2 := Except.ok.inj h
      rw [← h2]

/-- For a table style name, a successful `call_sgr_func` produces an SGRTag
entry carrying that name. -/
lemma call_sgr_func_of_mem {t : String} {kw : List (String × Option String)}
    {e : StackEntry} (ht : t ∈ tableStyles) (h : call_sgr_func t kw = .ok e) :
    ∃ tg, e = .tag tg ∧ tg.html_tag = t := by
  fin_cases ht
  · exact ⟨SGRSequences.b, (Except.ok.inj h).symm, rfl⟩
  · exact ⟨SGRSequences.dim, (Except.ok.inj h).symm, rfl⟩
  · exact ⟨SGRSequences.i, (Except.ok.inj h).symm, rfl⟩
  · have h2 : (match SGRSequences.u (getKwarg kw "type" (some "solid")) with
        | .ok tg => Except.ok (StackEntry.tag tg)
        | .error err => Except.error err) = Except.ok e := h
    cases hu : SGRSequences.u (getKwarg kw "type" (some "solid")) with
    | ok tg =>
      rw [hu] at h2
      exact ⟨tg, (Except.ok.inj h2).symm, u_html_tag hu⟩
    | error err => rw [hu] at h2; exact Except.noConfusion h2
  · have h2 : (match SGRSequences.blink (getKwarg kw "type" (some "slow")) with
        | .ok tg => Except.ok (StackEntry.tag tg)
        | .error err => Except.error err) = Except.ok e := h
    cases hb : SGRSequences.blink (getKwarg kw "type" (some "slow")) with
    | ok tg =>
      rw [hb] at h2
      exact ⟨tg, (Except.ok.inj h2).symm, blink_html_tag hb⟩
    | error err => rw [hb] at h2; exact Except.noConfusion h2

/-- Processing a concatenation of event streams processes the first stream and,
when it succeeds, continues with the second from the reached state. -/
lemma processEvents_append (as bs : List Event) (st : ParserState) :
    processEvents (as ++ bs) st =
      match processEvents as st with
      | .ok st2 => processEvents bs st2
      | .error e => .error e := by
  induction as generalizing st with
  | nil => rfl
  | cons e as ih =>
    simp only [List.cons_append, processEvents]
    cases h : handle_event st e with
    | ok st2 => exact ih st2
    | error err => rfl

/-- Invariant propagation: from a state whose stack represents the open-name
list `l`, successfully processing events that the nesting discipline carries
from `l` to `l2` reaches a state whose stack represents `l2`. -/
lemma goodStack_step (evs : List Event) :
    ∀ (st st2 : ParserState) (l l2 : List String),
      goodStack st.tags_stack l →
      processEvents evs st = .ok st2 →
      List.foldlM specStep l evs = some l2 →
      goodStack st2.tags_stack l2 := by
  induction evs with
  | nil =>
    intro st st2 l l2 hg hp hs
    rw [← Except.ok.inj hp, ← Option.some.inj hs]
    exact hg
  | cons e evs ih =>
    intro st st2 l l2 hg hp hs
    rw [List.foldlM_cons] at hs
    simp only [processEvents] at hp
    cases h1 : specStep l e with
    | none => rw [h1] at hs; exact Option.noConfusion hs
    | some l1 =>
      rw [h1] at hs
      simp only [Option.bind_eq_bind, Option.some_bind] at hs
      cases h2 : handle_event st e with
      | error err => rw [h2] at hp; exact Except.noConfusion hp
      | ok st1 =>
        rw [h2] at hp
        refine ih st1 st2 l1 l2 ?_ hp hs
        cases e with
        | data d =>
          have hst : handle_data d st = st1 := Except.ok.inj h2
          have hl : l = l1 := Option.some.inj h1
          rw [← hst, ← hl]
          exact hg
        | starttag t attrs =>
          simp only [specStep] at h1
          by_cases hmem : t ∈ tableStyles
          · rw [if_pos hmem] at h1
            have hl : t :: l = l1 := Option.some.inj h1
            have h3 : handle_starttag t attrs st = .ok st1 := h2
            rw [handle_starttag, beq_reset_of_mem hmem] at h3
            simp only [Bool.false_eq_true, if_false, validate_tag_of_mem hmem] at h3
            cases hk : build_kwargs t attrs with
            | error err => simp only [hk] at h3; exact Except.noConfusion h3
            | ok kwargs =>
              simp only [hk] at h3
              cases hc : call_sgr_func t kwargs with
              | error err => simp only [hc] at h3; exact Except.noConfusion h3
              | ok entry =>
                simp only [hc] at h3
                have hst := Except.ok.inj h3
                obtain ⟨tg, rfl, htg⟩ := call_sgr_func_of_mem hmem hc
                rw [← hst, ← hl]
                obtain ⟨hmap, hall⟩ := hg
                refine ⟨?_, ?_⟩
                · simp only [List.map_cons, hmap, StackEntry.name, htg]
                · intro x hx
                  rcases List.mem_cons.mp hx with rfl | hx2
                  · exact ⟨tg, rfl, htg ▸ hmem⟩
                  · exact hall x hx2
          · rw [if_neg hmem] at h1
            exact Option.noConfusion h1
        | endtag t =>
          obtain ⟨hmap, hall⟩ := hg
          cases l with
          | nil => simp only [specStep] at h1; exact Option.noConfusion h1
          | cons n rest =>
            simp only [specStep] at h1
            by_cases hnt : n = t
            · rw [if_pos hnt] at h1
              have hl : rest = l1 := Option.some.inj h1
              cases hstk : st.tags_stack with
              | nil => rw [hstk] at hmap; exact List.noConfusion hmap
              | cons e0 es =>
                rw [hstk] at hmap hall
                have hmap2 := List.cons.inj hmap
                obtain ⟨tg, he0, htg⟩ := hall e0 (List.mem_cons_self e0 es)
                have hname : tg.html_tag = t := by
                  rw [← hnt, ← hmap2.1, he0]; rfl
                have hmem : t ∈ tableStyles := hname ▸ htg
                have h3 : handle_endtag t st = .ok st1 := h2
                rw [handle_endtag, beq_reset_of_mem hmem] at h3
                simp only [Bool.false_eq_true, if_false, validate_tag_of_mem hmem] at h3
                have hrm : removeFirst st.tags_stack t = some es := by
                  rw [hstk, he0]
                  simp [removeFirst, StackEntry.eqName, hname]
                simp only [hrm] at h3
                have hst := Except.ok.inj h3
                rw [← hst, ← hl]
                exact ⟨hmap2.2, fun x hx => hall x (List.mem_cons_of_mem e0 hx)⟩
            · rw [if_neg hnt] at h1
              exact Option.noConfusion h1

end SGRML

namespace SGRML

/-- C1 counterexample: after opening b, i, u (in that order) and closing u,
the interpreter appends the reset sequence and then replays the remaining
stack in deque iteration order, which is seq(i) before seq(b) — the
most-recently-opened remaining tag first.  The claim requires the replay in
oldest-remaining-first order, i.e. the tail reset, seq(b), seq(i); the two
orders produce different fragment lists, so the claim as stated is false on
this input. -/
theorem C1_replay_counterexample :
    (processEvents
        [.starttag "b" [], .starttag "i" [], .starttag "u" [], .data "x", .endtag "u"]
        parserInit
      = .ok ⟨[.tag SGRSequences.i, .tag SGRSequences.b],
             [wrap_sgrN 1, wrap_sgrN 3, wrap_sgr "4:1", "x",
              wrap_sgrN 0, wrap_sgrN 3, wrap_sgrN 1]⟩)
    ∧ [wrap_sgrN 0, wrap_sgrN 3, wrap_sgrN 1] ≠ [wrap_sgrN 0, wrap_sgrN 1, wrap_sgrN 3] :=
  ⟨rfl, by decide⟩

/-- C1 (amended): for every end event for a non-reset style name with a
matching entry on the active stack -- in any state, however reached: nested or
interleaved closes, histories containing resets, even stacks holding the
leaked mro entry -- the interpreter removes the first matching entry scanning
from the most-recently-opened (left) end of the deque, appends the reset
sequence to the output stream, and then appends the escape sequence of every
entry still on the stack in deque iteration order, which is inner-to-outer
(newest-remaining-first): for any stack holding two or more remaining tags
the replayed sequences appear newest first, the head of `stack2`. -/
theorem C1_replay_order (st : ParserState) (name : String)
    (stack2 : List StackEntry)
    (hname : (name == "reset") = false)
    (hval : validate_tag name = .ok ())
    (hrm : removeFirst st.tags_stack name = some stack2) :
    handle_endtag name st =
      .ok { tags_stack := stack2,
            result := (st.result ++ [SGRSequences.reset])
                        ++ stack2.map StackEntry.str } := by
  rw [handle_endtag, hname]
  simp only [Bool.false_eq_true, if_false, hval, hrm]

/-- C1 witness: with u, i, b open (newest first) closing the outermost b -- a
non-innermost matching entry -- removes just the b entry and replays, after
the reset, seq(u) then seq(i): the two remaining tags appear newest first. -/
theorem C1_replay_order_witness :
    handle_endtag "b"
        ⟨[.tag ⟨"u", wrap_sgr "4:1"⟩, .tag SGRSequences.i, .tag SGRSequences.b],
         [wrap_sgrN 1, wrap_sgrN 3, wrap_sgr "4:1"]⟩
      = .ok ⟨[.tag ⟨"u", wrap_sgr "4:1"⟩, .tag SGRSequences.i],
             [wrap_sgrN 1, wrap_sgrN 3, wrap_sgr "4:1",
              wrap_sgrN 0, wrap_sgr "4:1", wrap_sgrN 3]⟩ :=
  C1_replay_order
    ⟨[.tag ⟨"u", wrap_sgr "4:1"⟩, .tag SGRSequences.i, .tag SGRSequences.b],
     [wrap_sgrN 1, wrap_sgrN 3, wrap_sgr "4:1"]⟩
    "b" [.tag ⟨"u", wrap_sgr "4:1"⟩, .tag SGRSequences.i] rfl rfl rfl

/-- C2: the claim says a start event named inverse validates against the
sequence table, pushes a StyleTag and appends its sequence.  The code has no
inverse entry: `SGRSequences` defines only reset, b, dim, i, u and blink, so
`validate_tag` raises the unknown-tag ValueError and the start handler aborts
without pushing or appending — evaluated here at the failing input. -/
theorem C2_inverse_missing :
    validate_tag "inverse" = .error (.unknownTag "inverse")
    ∧ handle_starttag "inverse" [] parserInit = .error (.unknownTag "inverse") :=
  ⟨rfl, rfl⟩

/-- C3: the claim says every start tag whose name is outside the sequence
table (and is not reset) fails with the unknown-style error and never pushes
or appends.  The name mro refutes it: `hasattr(SGRSequences, "mro")` is true
because class attribute lookup also finds the metaclass method `type.mro`, so
`validate_tag` passes, `SGRSequences.mro()` (the list of base classes) is
pushed onto the stack and its `str()` is appended to the output. -/
theorem C3_mro_leak :
    ("mro" ∉ tableStyles)
    ∧ validate_tag "mro" = .ok ()
    ∧ handle_starttag "mro" [] parserInit
        = .ok ⟨[StackEntry.mroList], [mro_str]⟩ :=
  ⟨by decide, rfl, rfl⟩

/-- C4: for every supported style X (default variant) and literal text t,
compiling the single well-formed pair consisting of a start X, the text t and
an end X yields seq(X) + t + reset + reset: the close emits reset plus an
empty replay and finalization unconditionally appends one more reset. -/
theorem C4_single_pair (X : String) (hX : X ∈ tableStyles) (tg : SGRTag)
    (htg : call_sgr_func X [] = .ok (.tag tg)) (t : String) :
    compileEvents [.starttag X [], .data t, .endtag X]
      = .ok (tg.sgr_sequence ++ t ++ SGRSequences.reset ++ SGRSequences.reset) := by
  fin_cases hX
  · have h : SGRSequences.b = tg := StackEntry.tag.inj (Except.ok.inj htg)
    rw [← h]; rfl
  · have h : SGRSequences.dim = tg := StackEntry.tag.inj (Except.ok.inj htg)
    rw [← h]; rfl
  · have h : SGRSequences.i = tg := StackEntry.tag.inj (Except.ok.inj htg)
    rw [← h]; rfl
  · have h : (⟨"u", wrap_sgr "4:1"⟩ : SGRTag) = tg :=
      StackEntry.tag.inj (Except.ok.inj htg)
    rw [← h]; rfl
  · have h : (⟨"blink", wrap_sgrN 5⟩ : SGRTag) = tg :=
      StackEntry.tag.inj (Except.ok.inj htg)
    rw [← h]; rfl

/-- C4 witness: the bold pair around the text "text" compiles to the bold
sequence, the text, and two reset sequences. -/
theorem C4_single_pair_witness :
    compileEvents [.starttag "b" [], .data "text", .endtag "b"]
      = .ok (wrap_sgrN 1 ++ "text" ++ wrap_sgrN 0 ++ wrap_sgrN 0) :=
  C4_single_pair "b" (by decide) SGRSequences.b rfl "text"

/-- C5 counterexample: the claim says every handler, the reset handler
included, preserves the stack-reflects-open-tags invariant.  After a start
event for b followed by a reset event, b has been started and not ended, yet
the stack is empty rather than holding the b entry, so the reset handler
breaks the invariant. -/
theorem C5_reset_counterexample :
    (processEvents [.starttag "b" [], .starttag "reset" []] parserInit
      = .ok ⟨[], [wrap_sgrN 1, wrap_sgrN 0]⟩)
    ∧ ([] : List StackEntry) ≠ [StackEntry.tag SGRSequences.b] :=
  ⟨rfl, by decide⟩

/-- C5 (amended): for well-nested event sequences made of start, end and text
events only (no reset events), the invariant holds: whenever processing
succeeds, the active stack lists exactly the tags whose start event has been
handled and whose end event has not, ordered by opening time with the most
recently opened at the head end.  The reset handler instead clears the stack,
so the invariant does not extend to sequences containing reset events. -/
theorem C5_stack_invariant (evs : List Event) (st : ParserState) (l : List String)
    (hrun : processEvents evs parserInit = .ok st)
    (hspec : specStack evs = some l) :
    st.tags_stack.map StackEntry.name = l :=
  (goodStack_step evs parserInit st [] l ⟨rfl, nofun⟩ hrun hspec).1

/-- C5 witness: after start b, text, start i the stack names are i then b,
matching the open-order list with the most recently opened first. -/
theorem C5_stack_invariant_witness :
    List.map StackEntry.name
        (ParserState.mk [StackEntry.tag SGRSequences.i, .tag SGRSequences.b]
          [wrap_sgrN 1, "x", wrap_sgrN 3]).tags_stack
      = ["i", "b"] :=
  C5_stack_invariant [.starttag "b" [], .data "x", .starttag "i" []]
    (ParserState.mk [StackEntry.tag SGRSequences.i, .tag SGRSequences.b]
      [wrap_sgrN 1, "x", wrap_sgrN 3])
    ["i", "b"] rfl rfl

/-- C6: the blink lookup maps slow to SGR parameter 5 and rapid to parameter
6, and fast is an alias of rapid: the tag returned for fast is byte-identical
to the one returned for rapid. -/
theorem C6_blink_alias :
    SGRSequences.blink (some "fast") = SGRSequences.blink (some "rapid")
    ∧ SGRSequences.blink (some "slow") = .ok ⟨"blink", wrap_sgrN 5⟩
    ∧ SGRSequences.blink (some "rapid") = .ok ⟨"blink", wrap_sgrN 6⟩ :=
  ⟨rfl, rfl, rfl⟩

/-- C7: an end event for a recognized non-reset style with no matching entry
on the stack makes `deque.remove` raise (the error the spec taxonomy calls
MalformedMarkupError), the whole run aborts at that event, and the facade
propagates the error so no partial output reaches the caller. -/
theorem C7_unmatched_end (evs rest : List Event) (st : ParserState) (n : String)
    (h1 : processEvents evs parserInit = .ok st)
    (h2 : n ∈ tableStyles)
    (h3 : removeFirst st.tags_stack n = none) :
    processEvents (evs ++ .endtag n :: rest) parserInit = .error .removeNotInDeque
    ∧ SGR.parse ⟨evs ++ .endtag n :: rest, none, 0⟩ = .error .removeNotInDeque := by
  have hend : handle_endtag n st = .error .removeNotInDeque := by
    rw [handle_endtag, beq_reset_of_mem h2]
    simp only [Bool.false_eq_true, if_false, validate_tag_of_mem h2]
    rw [h3]
  have hmain : processEvents (evs ++ .endtag n :: rest) parserInit
      = .error .removeNotInDeque := by
    rw [processEvents_append, h1]
    show processEvents (Event.endtag n :: rest) st = _
    rw [show processEvents (Event.endtag n :: rest) st
          = (match handle_endtag n st with
             | .ok st2 => processEvents rest st2
             | .error e => .error e) from rfl, hend]
  refine ⟨hmain, ?_⟩
  rw [show SGR.parse ⟨evs ++ .endtag n :: rest, none, 0⟩
        = (match compileEvents (evs ++ .endtag n :: rest) with
           | .ok r => .ok (r, ⟨evs ++ .endtag n :: rest, some r, 1⟩)
           | .error e => .error e) from rfl]
  rw [show compileEvents (evs ++ .endtag n :: rest)
        = (match processEvents (evs ++ .endtag n :: rest) parserInit with
           | .ok st2 => .ok (get_result st2)
           | .error e => .error e) from rfl, hmain]

/-- C7 witness: a lone end event for b on a fresh parser aborts with the
deque-removal error and the facade returns that error. -/
theorem C7_unmatched_end_witness :
    processEvents [Event.endtag "b"] parserInit = .error .removeNotInDeque
    ∧ SGR.parse ⟨[Event.endtag "b"], none, 0⟩ = .error .removeNotInDeque :=
  C7_unmatched_end [] [] parserInit "b" rfl (by decide) rfl

/-- C8: compilation on the facade is memoized and idempotent: when a fresh
instance (no cache, tokenizer never fed) parses successfully with result s,
the returned state has fed the tokenizer exactly once and cached s, and
parsing again returns the same string and the same state, feeding nothing. -/
theorem C8_memoized (st st1 : SGRState) (s : String)
    (h0 : st.parsed = none) (hf : st.feedCount = 0)
    (h : SGR.parse st = .ok (s, st1)) :
    SGR.parse st1 = .ok (s, st1) ∧ st1.feedCount = 1 ∧ st1.parsed = some s := by
  rw [SGR.parse, h0] at h
  cases hc : compileEvents st.events with
  | error e => rw [hc] at h; exact Except.noConfusion h
  | ok r =>
    rw [hc] at h
    have h2 := Except.ok.inj h
    have hr : r = s := congrArg Prod.fst h2
    have hst : SGRState.mk st.events (some r) (st.feedCount + 1) = st1 :=
      congrArg Prod.snd h2
    rw [← hst, ← hr, hf]
    exact ⟨rfl, rfl, rfl⟩

/-- C8 witness: a fresh instance over the empty event stream parses to the
lone reset sequence, caches it with one tokenizer feed, and reparsing
returns the identical pair. -/
theorem C8_memoized_witness :
    SGR.parse ⟨[], some (wrap_sgrN 0), 1⟩
        = .ok (wrap_sgrN 0, ⟨[], some (wrap_sgrN 0), 1⟩)
    ∧ (⟨[], some (wrap_sgrN 0), 1⟩ : SGRState).feedCount = 1
    ∧ (⟨[], some (wrap_sgrN 0), 1⟩ : SGRState).parsed = some (wrap_sgrN 0) :=
  C8_memoized ⟨[], none, 0⟩ ⟨[], some (wrap_sgrN 0), 1⟩ (wrap_sgrN 0) rfl rfl rfl

/-- C9: equality on compiled instances: against another instance the result
is true iff the two compiled strings are byte-identical; against a raw string
the result is true iff the compiled string is byte-identical to it; against a
value of any other kind the comparison raises the ValueError instead of
returning false. -/
theorem C9_equality (a b : SGRState) (sa sb : String) (a1 b1 : SGRState)
    (t tn : String)
    (ha : SGR.parse a = .ok (sa, a1)) (hb : SGR.parse b = .ok (sb, b1)) :
    SGR.eq a (.sgrState b) = .ok (sa == sb)
    ∧ SGR.eq a (.str t) = .ok (sa == t)
    ∧ SGR.eq a (.otherValue tn) = .error (.cantCompare tn) := by
  refine ⟨?_, ?_, rfl⟩
  · show (match SGR.parse a with
      | .error e => .error e
      | .ok (r, _) =>
        match SGR.parse b with
        | .error e => .error e
        | .ok (r2, _) => .ok (r == r2)) = Except.ok (sa == sb)
    rw [ha, hb]
  · show (match SGR.parse a with
      | .error e => .error e
      | .ok (r, _) => .ok (r == t)) = Except.ok (sa == t)
    rw [ha]

/-- C9 witness: two fresh instances over the empty event stream compare by
their compiled reset-only strings, comparing with a raw string compares the
compiled string to it, and comparing with an int raises. -/
theorem C9_equality_witness :
    SGR.eq ⟨[], none, 0⟩ (.sgrState ⟨[], none, 0⟩) = .ok (wrap_sgrN 0 == wrap_sgrN 0)
    ∧ SGR.eq ⟨[], none, 0⟩ (.str "x") = .ok (wrap_sgrN 0 == "x")
    ∧ SGR.eq ⟨[], none, 0⟩ (.otherValue "int") = .error (.cantCompare "int") :=
  C9_equality ⟨[], none, 0⟩ ⟨[], none, 0⟩ (wrap_sgrN 0) (wrap_sgrN 0)
    ⟨[], some (wrap_sgrN 0), 1⟩ ⟨[], some (wrap_sgrN 0), 1⟩ "x" "int" rfl rfl

/-- C10: a start tag for u carrying the attribute type with no value delivers
the attribute value as None; the variant lookup rejects None, and the start
handler fails with the unknown-underline-type ValueError from any state,
before any tag is pushed or any fragment appended, so the whole compilation
aborts. -/
theorem C10_valueless_type_attr (st : ParserState) :
    SGRSequences.u none = .error (.unknownUnderlineType "None")
    ∧ handle_starttag "u" [("type", none)] st = .error (.unknownUnderlineType "None")
    ∧ compileEvents [.starttag "u" [("type", none)]]
        = .error (.unknownUnderlineType "None") :=
  ⟨rfl, rfl, rfl⟩

end SGRML
